import Mathlib

/-!
Verification of the nrsc5 RTL-SDR automatic gain search (src/main.c).

The gain search lives in `rtlsdr_snr_callback`, driven by the SNR samples
the input pipeline produces.  Its state is the globals `gain_list`,
`gain_index`, `gain_count` and the callback-local statics `best_gain`,
`best_snr`.  We embed it shallowly: the mutable state becomes a structure
threaded explicitly, the SNR float becomes a rational (the claims concern
comparisons and control flow, exact at the inputs considered), and the
hardware side effects (`rtlsdr_set_tuner_gain`, `rtlsdr_reset_buffer`)
become an emitted command list.
-/

namespace Nrsc5

/-- Hardware commands the callback issues to the RTL-SDR device
(`rtlsdr_set_tuner_gain` and `rtlsdr_reset_buffer`). -/
inductive HwCmd where
  | setGain (g : Int)
  | resetBuffer
deriving DecidableEq, Repr

/-- The gain-search state: the globals `gain_list` (an `int[128]`, modelled
as the list of filled entries, reads past the end yielding the zero the
array was initialized with), `gain_index`, `gain_count`, and the statics
`best_gain`, `best_snr` of `rtlsdr_snr_callback`. -/
structure GainState where
  gain_list : List Int
  gain_index : Nat
  gain_count : Nat
  best_gain : Nat
  best_snr : ℚ
deriving DecidableEq, Repr

/-- `rtlsdr_snr_callback` (src/main.c lines 49-84).  Takes the current
state and the reported SNR; returns the new state, the C return value
(1 = continue searching, 0 = stop), and the hardware commands issued. -/
def rtlsdr_snr_callback (st : GainState) (snr : ℚ) : GainState × Nat × List HwCmd :=
  if st.gain_count = 0 then
    (st, 0, [])
  else
    -- choose the best gain level: `if (snr >= best_snr)`
    let st1 := if st.best_snr ≤ snr then
      { st with best_gain := st.gain_index, best_snr := snr } else st
    -- `if (gain_index + 1 >= gain_count || snr < best_snr * 0.5)`
    if st1.gain_count ≤ st1.gain_index + 1 ∨ snr < st1.best_snr * (1/2) then
      let st2 := { st1 with gain_index := st1.best_gain, gain_count := 0 }
      (st2, 0, [HwCmd.setGain (st2.gain_list.getD st2.gain_index 0), HwCmd.resetBuffer])
    else
      let st2 := { st1 with gain_index := st1.gain_index + 1 }
      (st2, 1, [HwCmd.setGain (st2.gain_list.getD st2.gain_index 0), HwCmd.resetBuffer])

/-- Feed a sequence of SNR samples to the callback, collecting the return
values in order. -/
def runCallback : GainState → List ℚ → GainState × List Nat
  | st, [] => (st, [])
  | st, snr :: rest =>
    let out := rtlsdr_snr_callback st snr
    let run := runCallback out.1 rest
    (run.1, out.2.1 :: run.2)

/-- The search state as `main` sets it up when no explicit gain is
requested and the tuner reports `gains` (src/main.c lines 406-414): the
globals start zero-initialized, `gain_count` is set to the number of tuner
gains, and the search begins at index 0. -/
def init_search (gains : List Int) : GainState :=
  { gain_list := gains, gain_index := 0, gain_count := gains.length,
    best_gain := 0, best_snr := 0 }

/-- C's `INT_MIN` for 32-bit `int`, the sentinel `main` uses for
"no `-g` gain option given". -/
def INT_MIN : Int := -(2 ^ 31)

/-- Outcome of the RTL-SDR gain configuration in `main` (src/main.c lines
406-420): whether the SNR callback was registered on the pipeline, the
hardware gain commands issued, and the resulting gain-search state. -/
structure SetupResult where
  snr_cb_registered : Bool
  cmds : List HwCmd
  search : GainState
deriving DecidableEq, Repr

/-- The gain configuration of `main` (src/main.c lines 406-420): with no
explicit gain (`gain == INT_MIN`), query the tuner gain table; if it is
nonempty, register the SNR callback and apply the first table gain.  With
an explicit gain, apply it directly; the search globals stay
zero-initialized. -/
def rtlsdr_setup (gain : Int) (tuner_gains : List Int) : SetupResult :=
  if gain = INT_MIN then
    if 0 < tuner_gains.length then
      { snr_cb_registered := true,
        cmds := [HwCmd.setGain (tuner_gains.getD 0 0)],
        search := init_search tuner_gains }
    else
      { snr_cb_registered := false, cmds := [], search := init_search tuner_gains }
  else
    { snr_cb_registered := false, cmds := [HwCmd.setGain gain], search := init_search [] }

/-- Events of the RTL-SDR read loop in `main`: a blocking synchronous read
(`rtlsdr_read_sync`, src/main.c line 431) or the start of asynchronous
delivery (`rtlsdr_read_async`, src/main.c line 438). -/
inductive MainEvent where
  | syncRead
  | asyncStart
deriving DecidableEq, Repr

/-- The RTL-SDR read loop of `main` (src/main.c lines 425-439):
`while (gain_count) { rtlsdr_read_sync(...); input_cb(...); }` followed by
`rtlsdr_read_async(...)`.  Each synchronous read feeds `input_cb`, whose
only effect on the search globals is through the registered SNR callback;
a read is modelled as the batch of SNR samples it leads the pipeline to
report.  The loop consumes the available batches; the asynchronous loop is
started once the loop condition `gain_count` is zero (with no batch left
and the search still active, the loop stays blocked in `rtlsdr_read_sync`
and no event is emitted). -/
def main_loop : GainState → List (List ℚ) → List MainEvent × GainState
  | st, [] => if st.gain_count = 0 then ([MainEvent.asyncStart], st) else ([], st)
  | st, batch :: rest =>
    if st.gain_count = 0 then ([MainEvent.asyncStart], st)
    else
      let run := main_loop (runCallback st batch).1 rest
      (MainEvent.syncRead :: run.1, run.2)

/-- Unfolding lemma for `runCallback` on a nonempty sample list. -/
theorem runCallback_cons (st : GainState) (snr : ℚ) (rest : List ℚ) :
    runCallback st (snr :: rest) =
      ((runCallback (rtlsdr_snr_callback st snr).1 rest).1,
       (rtlsdr_snr_callback st snr).2.1 ::
         (runCallback (rtlsdr_snr_callback st snr).1 rest).2) := rfl

/-- While the search is active, the callback either stops (result 0,
`gain_count` cleared) or continues (result 1, `gain_count` preserved, index
advanced, and the advanced index still inside the table). -/
theorem callback_cases (st : GainState) (snr : ℚ) (hact : st.gain_count ≠ 0) :
    ((rtlsdr_snr_callback st snr).2.1 = 0 ∧
     (rtlsdr_snr_callback st snr).1.gain_count = 0) ∨
    ((rtlsdr_snr_callback st snr).2.1 = 1 ∧
     (rtlsdr_snr_callback st snr).1.gain_count = st.gain_count ∧
     (rtlsdr_snr_callback st snr).1.gain_index = st.gain_index + 1 ∧
     st.gain_index + 1 < st.gain_count) := by
  simp only [rtlsdr_snr_callback, if_neg hact]
  split_ifs with hb hs hs <;> simp_all

/-- A concluded state (`gain_count = 0`) is frozen: every further sample
returns 0 and leaves the state unchanged. -/
theorem run_concluded (snrs : List ℚ) (st : GainState) (h : st.gain_count = 0) :
    runCallback st snrs = (st, List.replicate snrs.length 0) := by
  induction snrs with
  | nil => simp [runCallback]
  | cons snr rest ih =>
    rw [runCallback_cons]
    simp [rtlsdr_snr_callback, h, ih, List.replicate_succ]

/-- The number of "continue" results over any sample sequence is bounded by
the remaining table entries. -/
theorem continues_le (snrs : List ℚ) :
    ∀ st : GainState,
      (runCallback st snrs).2.count 1 ≤ st.gain_count - st.gain_index := by
  induction snrs with
  | nil => intro st; simp [runCallback]
  | cons snr rest ih =>
    intro st
    by_cases h0 : st.gain_count = 0
    · rw [run_concluded _ _ h0]
      simp [List.count_replicate]
    · rw [runCallback_cons]
      rcases callback_cases st snr h0 with ⟨hr, hc⟩ | ⟨hr, hc, hi, hlt⟩
      · rw [hr, run_concluded _ _ hc]
        simp [List.count_replicate]
      · rw [hr]
        have := ih (rtlsdr_snr_callback st snr).1
        rw [hc, hi] at this
        simp only [List.count_cons_self]
        omega

/-- Once active with the index inside the table, the search concludes
within `gain_count - gain_index` samples. -/
theorem run_concludes (snrs : List ℚ) :
    ∀ st : GainState, st.gain_index < st.gain_count →
      st.gain_count - st.gain_index ≤ snrs.length →
      (runCallback st snrs).1.gain_count = 0 := by
  induction snrs with
  | nil =>
    intro st h1 h2
    simp only [List.length_nil] at h2
    show st.gain_count = 0
    omega
  | cons snr rest ih =>
    intro st h1 h2
    have hact : st.gain_count ≠ 0 := by omega
    rw [runCallback_cons]
    rcases callback_cases st snr hact with ⟨hr, hc⟩ | ⟨hr, hc, hi, hlt⟩
    · rw [run_concluded _ _ hc]
      exact hc
    · refine ih _ ?_ ?_
      · rw [hc, hi]; exact hlt
      · rw [hc, hi]
        simp only [List.length_cons] at h2
        omega

/-- C2's property of one active callback step: stop iff at the last table
entry or the SNR fell below half the (just-updated) best; on stop adopt
the best index and clear the count; otherwise advance and continue. -/
def stop_spec (st : GainState) (snr : ℚ) : Prop :=
  ((rtlsdr_snr_callback st snr).2.1 = 0 ↔
     (st.gain_index = st.gain_count - 1 ∨
      snr < (if st.best_snr ≤ snr then snr else st.best_snr) * (1/2))) ∧
  ((rtlsdr_snr_callback st snr).2.1 = 0 →
     (rtlsdr_snr_callback st snr).1.gain_index =
       (if st.best_snr ≤ snr then st.gain_index else st.best_gain) ∧
     (rtlsdr_snr_callback st snr).1.gain_count = 0) ∧
  ((rtlsdr_snr_callback st snr).2.1 ≠ 0 →
     (rtlsdr_snr_callback st snr).1.gain_index = st.gain_index + 1 ∧
     (rtlsdr_snr_callback st snr).2.1 = 1 ∧
     (rtlsdr_snr_callback st snr).1.gain_count = st.gain_count)

/-- C5's property of one active callback step: the step continues exactly
when the post-state is still searching, and then the index grew by one. -/
def monotone_spec (st : GainState) (snr : ℚ) : Prop :=
  ((rtlsdr_snr_callback st snr).2.1 = 1 ↔
     (rtlsdr_snr_callback st snr).1.gain_count ≠ 0) ∧
  ((rtlsdr_snr_callback st snr).1.gain_count ≠ 0 →
     (rtlsdr_snr_callback st snr).1.gain_index = st.gain_index + 1)

/-- C10's property of one active callback step: the table is unchanged and
the emitted commands are exactly a gain-set to the table entry at the new
index (the updated best index on a concluding call) followed by a buffer
reset. -/
def hw_spec (st : GainState) (snr : ℚ) : Prop :=
  (rtlsdr_snr_callback st snr).1.gain_list = st.gain_list ∧
  (rtlsdr_snr_callback st snr).2.2 =
    [HwCmd.setGain (st.gain_list.getD (rtlsdr_snr_callback st snr).1.gain_index 0),
     HwCmd.resetBuffer] ∧
  ((rtlsdr_snr_callback st snr).2.1 = 0 →
     (rtlsdr_snr_callback st snr).1.gain_index =
       (if st.best_snr ≤ snr then st.gain_index else st.best_gain))

/-- C4's property: from the initial search state, at most `|gains|`
invocations return "continue", and once at least `|gains|` samples have
arrived the search has concluded. -/
def search_terminates (gains : List Int) (snrs : List ℚ) : Prop :=
  (runCallback (init_search gains) snrs).2.count 1 ≤ gains.length ∧
  (gains.length ≤ snrs.length →
     (runCallback (init_search gains) snrs).1.gain_count = 0)

/-- C6's property: from a concluded state, any sample sequence leaves the
state unchanged and every invocation returns 0. -/
def concluded_spec (st : GainState) (snrs : List ℚ) : Prop :=
  (runCallback st snrs).1 = st ∧
  (runCallback st snrs).2 = List.replicate snrs.length 0

/-- C7's property: the SNR callback is registered (and the first table gain
applied, with the search state initialized over the table) exactly when no
`-g` gain was given and the tuner reports a nonempty gain list; with an
explicit gain, that gain is applied directly and no search state exists. -/
def setup_spec (gain : Int) (tuner_gains : List Int) : Prop :=
  ((rtlsdr_setup gain tuner_gains).snr_cb_registered = true ↔
     (gain = INT_MIN ∧ tuner_gains ≠ [])) ∧
  (gain = INT_MIN ∧ tuner_gains ≠ [] →
     (rtlsdr_setup gain tuner_gains).cmds =
       [HwCmd.setGain (tuner_gains.getD 0 0)] ∧
     (rtlsdr_setup gain tuner_gains).search = init_search tuner_gains) ∧
  (gain ≠ INT_MIN →
     (rtlsdr_setup gain tuner_gains).snr_cb_registered = false ∧
     (rtlsdr_setup gain tuner_gains).cmds = [HwCmd.setGain gain] ∧
     (rtlsdr_setup gain tuner_gains).search.gain_count = 0)

/-- C8's property: the read loop's event trace is some number of
synchronous reads followed by the asynchronous start exactly when the
search has concluded. -/
def loop_spec (st : GainState) (batches : List (List ℚ)) : Prop :=
  ∃ k, (main_loop st batches).1 =
    List.replicate k MainEvent.syncRead ++
      (if (main_loop st batches).2.gain_count = 0
       then [MainEvent.asyncStart] else [])

end Nrsc5

namespace Nrsc5

/-- C1 counterexample: over the 5-entry table with SNR metrics
[5, 8, 10, 9, 4], the number of "continue" (return 1) signals is not 3:
indices 0, 1, 2 and 3 all continue, so 4 continues precede the stop. -/
theorem C1_counterexample :
    ¬ ((runCallback (init_search [5, 8, 10, 9, 4]) [5, 8, 10, 9, 4]).2.count 1 = 3) := by
  norm_num [runCallback, rtlsdr_snr_callback, init_search]

/-- C1 (amended): running the gain search from its initial state over the
5-entry table with SNR metrics [5, 8, 10, 9, 4]: the best index becomes 2
(metric 10), the search concludes with final chosen index 2, and exactly
4 "continue" signals (return value 1) precede the "stop" signal (return
value 0) — the return-value trace is [1, 1, 1, 1, 0]. -/
theorem C1_trace :
    (runCallback (init_search [5, 8, 10, 9, 4]) [5, 8, 10, 9, 4]).1.best_gain = 2 ∧
    (runCallback (init_search [5, 8, 10, 9, 4]) [5, 8, 10, 9, 4]).1.gain_index = 2 ∧
    (runCallback (init_search [5, 8, 10, 9, 4]) [5, 8, 10, 9, 4]).1.gain_count = 0 ∧
    (runCallback (init_search [5, 8, 10, 9, 4]) [5, 8, 10, 9, 4]).2 = [1, 1, 1, 1, 0] := by
  norm_num [runCallback, rtlsdr_snr_callback, init_search]

/-- C2: while the search is active and the index is inside the table, the
callback returns 0 iff the current index is the last table entry or the
SNR is below half the best-so-far as updated this call; on stop it adopts
the (updated) best index and clears `gain_count`; otherwise it advances
the index by one and returns 1 with `gain_count` unchanged. -/
theorem C2_stop_characterization (st : GainState) (snr : ℚ)
    (hact : st.gain_count ≠ 0) (hidx : st.gain_index < st.gain_count) :
    stop_spec st snr := by
  have hcond : st.gain_count ≤ st.gain_index + 1 ↔ st.gain_index = st.gain_count - 1 := by
    omega
  unfold stop_spec
  simp only [rtlsdr_snr_callback, if_neg hact]
  split_ifs with hb hs hs <;> refine ⟨?_, ?_, ?_⟩ <;>
    simp_all [or_congr_left hcond]

theorem C2_witness :
    ((init_search [5, 8]).gain_count ≠ 0 ∧
     (init_search [5, 8]).gain_index < (init_search [5, 8]).gain_count) ∧
    stop_spec (init_search [5, 8]) 5 :=
  ⟨⟨by decide, by decide⟩,
   C2_stop_characterization (init_search [5, 8]) 5 (by decide) (by decide)⟩

/-- C3: while the search is active, a sample at least as large as the best
so far moves the best index to the current index and the best metric to
the sample — so a tie replaces the best with the later index. -/
theorem C3_best_update (st : GainState) (snr : ℚ)
    (hact : st.gain_count ≠ 0) (hbest : st.best_snr ≤ snr) :
    (rtlsdr_snr_callback st snr).1.best_gain = st.gain_index ∧
    (rtlsdr_snr_callback st snr).1.best_snr = snr := by
  simp only [rtlsdr_snr_callback, if_neg hact, if_pos hbest]
  split_ifs <;> simp

theorem C3_witness :
    ((init_search [5, 8]).gain_count ≠ 0 ∧ (init_search [5, 8]).best_snr ≤ 3) ∧
    (rtlsdr_snr_callback (init_search [5, 8]) 3).1.best_gain =
      (init_search [5, 8]).gain_index ∧
    (rtlsdr_snr_callback (init_search [5, 8]) 3).1.best_snr = 3 :=
  ⟨⟨by decide, by norm_num [init_search]⟩,
   C3_best_update (init_search [5, 8]) 3 (by decide) (by norm_num [init_search])⟩

/-- C4: over a nonempty gain table and any SNR sequence, at most `n`
invocations return "continue" (each table entry is visited at most once),
and after `n` samples the search has surely concluded. -/
theorem C4_terminates (gains : List Int) (snrs : List ℚ)
    (h : 1 ≤ gains.length) : search_terminates gains snrs := by
  constructor
  · have h1 := continues_le snrs (init_search gains)
    have h2 : (init_search gains).gain_count = gains.length := rfl
    have h3 : (init_search gains).gain_index = 0 := rfl
    omega
  · intro hlen
    refine run_concludes snrs (init_search gains) ?_ ?_
    · show (0 : ℕ) < gains.length
      omega
    · show gains.length - 0 ≤ snrs.length
      omega

theorem C4_witness :
    1 ≤ ([5, 8] : List Int).length ∧ search_terminates [5, 8] [3, 3] :=
  ⟨by decide, C4_terminates [5, 8] [3, 3] (by decide)⟩

/-- C5: while the search is active, a step returns 1 exactly when the
post-state is still searching, and every such step increases the index by
exactly one — so before conclusion the index never decreases. -/
theorem C5_monotone (st : GainState) (snr : ℚ) (hact : st.gain_count ≠ 0) :
    monotone_spec st snr := by
  unfold monotone_spec
  rcases callback_cases st snr hact with ⟨hr, hc⟩ | ⟨hr, hc, hi, hlt⟩ <;>
    rw [hr, hc] <;> simp_all

theorem C5_witness :
    (init_search [5, 8]).gain_count ≠ 0 ∧ monotone_spec (init_search [5, 8]) 3 :=
  ⟨by decide, C5_monotone (init_search [5, 8]) 3 (by decide)⟩

/-- C6: a concluded state is terminal — every further invocation returns 0
and no component of the search state ever changes again. -/
theorem C6_terminal (st : GainState) (snrs : List ℚ) (h : st.gain_count = 0) :
    concluded_spec st snrs := by
  unfold concluded_spec
  rw [run_concluded snrs st h]
  exact ⟨rfl, rfl⟩

theorem C6_witness :
    (init_search []).gain_count = 0 ∧ concluded_spec (init_search []) [1, 2] :=
  ⟨by decide, C6_terminal (init_search []) [1, 2] (by decide)⟩

/-- C7: the gain search is entered iff no explicit gain was requested: the
SNR callback is registered and the first table gain applied exactly when
`gain = INT_MIN` and the tuner gain list is nonempty; an explicit gain is
applied directly with no search state created. -/
theorem C7_search_gate (gain : Int) (tuner_gains : List Int) :
    setup_spec gain tuner_gains := by
  unfold setup_spec rtlsdr_setup
  split_ifs with h1 h2 <;>
    simp_all [init_search, List.length_pos, List.isEmpty_iff]

/-- C8: in the RTL-SDR path the read loop's events are some number of
blocking synchronous reads, followed by the start of asynchronous
delivery exactly when the gain search has concluded
(`gain_count = 0`) — never before. -/
theorem C8_sync_then_async (st : GainState) (batches : List (List ℚ)) :
    loop_spec st batches := by
  induction batches generalizing st with
  | nil =>
    by_cases h : st.gain_count = 0 <;>
      exact ⟨0, by simp [main_loop, loop_spec, h]⟩
  | cons batch rest ih =>
    by_cases h : st.gain_count = 0
    · exact ⟨0, by simp [main_loop, h]⟩
    · obtain ⟨k, hk⟩ := ih (runCallback st batch).1
      refine ⟨k + 1, ?_⟩
      simp only [main_loop, if_neg h]
      rw [List.replicate_succ]
      simp [hk]

/-- C9: with no active search (`gain_count = 0`), the callback returns 0
immediately: the state is untouched and no hardware command is issued. -/
theorem C9_inactive_noop (st : GainState) (snr : ℚ) (h : st.gain_count = 0) :
    rtlsdr_snr_callback st snr = (st, 0, []) := by
  simp [rtlsdr_snr_callback, h]

theorem C9_witness :
    (init_search []).gain_count = 0 ∧
    rtlsdr_snr_callback (init_search []) 7 = (init_search [], 0, []) :=
  ⟨by decide, C9_inactive_noop (init_search []) 7 (by decide)⟩

/-- C10: every active callback invocation leaves the gain table unchanged
and issues exactly a tuner-gain set to the table entry at the new current
index — the (updated) best index on a concluding call — followed by a
buffer reset. -/
theorem C10_applies_gain (st : GainState) (snr : ℚ) (hact : st.gain_count ≠ 0) :
    hw_spec st snr := by
  unfold hw_spec
  simp only [rtlsdr_snr_callback, if_neg hact]
  split_ifs with hb hs hs <;> simp_all

theorem C10_witness :
    (init_search [5, 8]).gain_count ≠ 0 ∧ hw_spec (init_search [5, 8]) 3 :=
  ⟨by decide, C10_applies_gain (init_search [5, 8]) 3 (by decide)⟩

end Nrsc5
